import Mathlib

/-!
Verification of the echora backend against its natural-language
specification.  Rust functions from `src/backend/src` are shallowly
embedded as executable Lean definitions: Rust `&str`/`String` values
under test become `List Char` (with UTF-8 byte lengths computed via
`Char.utf8Size`), byte slices become `List Nat`, database tables become
association lists, and fallible functions return `Except AppError`.
-/

set_option autoImplicit false

namespace Echora

/-- Model of `shared::error::AppError` (one constructor per domain error,
carrying the message). -/
inductive AppError where
  | badRequest (msg : String)
  | authentication (msg : String)
  | forbidden (msg : String)
  | notFound (msg : String)
  | conflict (msg : String)
  | internal (msg : String)
  deriving DecidableEq, Repr

/-- Unicode White_Space code points, as recognised by Rust
`char::is_whitespace`. -/
def isRustWhitespace (c : Char) : Bool :=
  (0x09 ≤ c.val && c.val ≤ 0x0D) || c.val == 0x20 || c.val == 0x85 ||
    c.val == 0xA0 || c.val == 0x1680 ||
    (0x2000 ≤ c.val && c.val ≤ 0x200A) || c.val == 0x2028 ||
    c.val == 0x2029 || c.val == 0x202F || c.val == 0x205F || c.val == 0x3000

/-- Model of Rust `str::trim`: strip leading and trailing whitespace. -/
def rustTrim (s : List Char) : List Char :=
  ((s.dropWhile isRustWhitespace).reverse.dropWhile isRustWhitespace).reverse

/-- Rust `str::len`: the length of a string in UTF-8 bytes. -/
def byteLen (s : List Char) : Nat :=
  (s.map Char.utf8Size).sum

/-- `validation::MAX_MESSAGE_LENGTH`. -/
def MAX_MESSAGE_LENGTH : Nat := 4000

/-- `validation::REPLY_PREVIEW_LENGTH`. -/
def REPLY_PREVIEW_LENGTH : Nat := 200

/-- `shared::truncate_string`: take the first `maxChars` characters; if any
characters remain, append `"..."`. -/
def truncate_string (s : List Char) (maxChars : Nat) : List Char :=
  let truncated := s.take maxChars
  if maxChars < s.length then truncated ++ ['.', '.', '.'] else truncated

/-- `validation::validate_message_content`: reject when the trimmed content
is empty or the content exceeds 4000 UTF-8 bytes. -/
def validate_message_content (content : List Char) : Except AppError Unit :=
  if (rustTrim content).isEmpty || MAX_MESSAGE_LENGTH < byteLen content then
    .error (.badRequest "Message must be between 1 and 4000 characters")
  else
    .ok ()

/-- `validation::validate_message_content_optional`. -/
def validate_message_content_optional (content : Option (List Char))
    (hasAttachments : Bool) : Except AppError Unit :=
  match content with
  | some c =>
      if !(rustTrim c).isEmpty then validate_message_content c
      else if hasAttachments then .ok ()
      else .error (.badRequest "Message must have content or attachments")
  | none =>
      if hasAttachments then .ok ()
      else .error (.badRequest "Message must have content or attachments")

/-- Row shape returned by the `get_reply_preview` SQL query. -/
structure ReplyPreviewRow where
  id : Nat
  author_username : List Char
  content : List Char

/-- Model of `models::ReplyPreview`. -/
structure ReplyPreview where
  id : Nat
  author : List Char
  content : List Char
  deriving DecidableEq

/-- `database::get_reply_preview`, given the optional row fetched for the
message id: build the preview with content truncated to
`REPLY_PREVIEW_LENGTH`. -/
def get_reply_preview (row : Option ReplyPreviewRow) : Option ReplyPreview :=
  row.map fun r =>
    { id := r.id
      author := r.author_username
      content := truncate_string r.content REPLY_PREVIEW_LENGTH }

/-! ### Helper lemmas on trimming and byte lengths -/

theorem dropWhile_replicate_of_neg (n : Nat) (c : Char)
    (h : isRustWhitespace c = false) :
    List.dropWhile isRustWhitespace (List.replicate n c) = List.replicate n c := by
  cases n with
  | zero => rfl
  | succ m => rw [List.replicate_succ, List.dropWhile_cons, h]; simp

theorem rustTrim_replicate (n : Nat) (c : Char) (h : isRustWhitespace c = false) :
    rustTrim (List.replicate n c) = List.replicate n c := by
  unfold rustTrim
  rw [dropWhile_replicate_of_neg n c h, List.reverse_replicate,
    dropWhile_replicate_of_neg n c h, List.reverse_replicate]

theorem byteLen_replicate (n : Nat) (c : Char) :
    byteLen (List.replicate n c) = n * c.utf8Size := by
  simp [byteLen, List.sum_replicate]

/-- C9: `truncate_string` is the identity on strings of at most `N`
characters; on longer strings it returns exactly the first `N` characters
followed by the three-character `"..."` ellipsis sentinel; and
`get_reply_preview` builds reply previews by truncating the replied
message's content at `REPLY_PREVIEW_LENGTH = 200`. -/
theorem truncate_identity_and_sentinel (s : List Char) (N : Nat) :
    (s.length ≤ N → truncate_string s N = s) ∧
    (N < s.length →
      truncate_string s N = s.take N ++ ['.', '.', '.'] ∧
      (s.take N).length = N ∧ (['.', '.', '.'] : List Char).length = 3) ∧
    (∀ row : Option ReplyPreviewRow,
      (get_reply_preview row).map ReplyPreview.content
        = row.map fun r => truncate_string r.content 200) ∧
    REPLY_PREVIEW_LENGTH = 200 := by
  refine ⟨fun h => ?_, fun h => ⟨?_, ?_, rfl⟩, fun row => ?_, rfl⟩
  · simp [truncate_string, Nat.not_lt.2 h, List.take_of_length_le h]
  · simp [truncate_string, h]
  · simp [List.length_take]; omega
  · cases row <;> simp [get_reply_preview, REPLY_PREVIEW_LENGTH]

theorem truncate_identity_and_sentinel_witness :
    truncate_string ['h', 'i'] 5 = ['h', 'i'] ∧
    truncate_string ['a', 'b', 'c'] 2 = ['a', 'b', 'c'].take 2 ++ ['.', '.', '.'] := by
  exact ⟨(truncate_identity_and_sentinel ['h', 'i'] 5).1 (by decide),
    ((truncate_identity_and_sentinel ['a', 'b', 'c'] 2).2.1 (by decide)).1⟩

/-! ### C5: message-content validation boundary -/

/-- A 4000-character string of two-byte characters: 4000 characters but
8000 UTF-8 bytes. -/
def fourThousandTwoByteChars : List Char := List.replicate 4000 'é'

/-- C5 fails as stated: this content is trimmed-non-empty and exactly 4000
characters long, yet `validate_message_content` rejects it, because the
source checks `content.len()` — the UTF-8 **byte** length — not the
character count. -/
theorem validate_message_content_char_counterexample :
    (rustTrim fourThousandTwoByteChars).isEmpty = false ∧
    fourThousandTwoByteChars.length = 4000 ∧
    validate_message_content fourThousandTwoByteChars =
      .error (.badRequest "Message must be between 1 and 4000 characters") := by
  have htrim : rustTrim fourThousandTwoByteChars = fourThousandTwoByteChars :=
    rustTrim_replicate 4000 'é' (by decide)
  have hlen : byteLen fourThousandTwoByteChars = 8000 := by
    rw [fourThousandTwoByteChars, byteLen_replicate]; decide
  refine ⟨by rw [htrim, fourThousandTwoByteChars]; simp [List.isEmpty_iff],
    by rw [fourThousandTwoByteChars]; exact List.length_replicate .., ?_⟩
  rw [validate_message_content, htrim, hlen]
  simp [MAX_MESSAGE_LENGTH]

/-- C5 amended: the 4000/4001 boundary of message-content validation is
measured in UTF-8 bytes (`str::len`), which coincides with the character
count for ASCII content; content that trims to empty is accepted only when
attachments are present, and trimmed-non-empty content is validated the
same way with or without attachments. -/
theorem validate_message_content_boundary (content : List Char) (hasAtt : Bool) :
    ((rustTrim content).isEmpty = false →
      (byteLen content = 4000 → validate_message_content content = .ok ()) ∧
      (byteLen content = 4001 →
        validate_message_content content =
          .error (.badRequest "Message must be between 1 and 4000 characters"))) ∧
    ((∀ c ∈ content, c.utf8Size = 1) → byteLen content = content.length) ∧
    ((rustTrim content).isEmpty = false →
      validate_message_content_optional (some content) hasAtt =
        validate_message_content content) ∧
    ((rustTrim content).isEmpty = true →
      validate_message_content_optional (some content) hasAtt =
        if hasAtt then .ok ()
        else .error (.badRequest "Message must have content or attachments")) ∧
    (validate_message_content_optional none hasAtt =
      if hasAtt then .ok ()
      else .error (.badRequest "Message must have content or attachments")) := by
  refine ⟨fun htrim => ⟨fun hb => ?_, fun hb => ?_⟩, fun hascii => ?_,
    fun htrim => ?_, fun htrim => ?_, ?_⟩
  · simp [validate_message_content, htrim, hb, MAX_MESSAGE_LENGTH]
  · simp [validate_message_content, htrim, hb, MAX_MESSAGE_LENGTH]
  · induction content with
    | nil => rfl
    | cons c t ih =>
        have hc : c.utf8Size = 1 := hascii c (List.mem_cons_self c t)
        have ht := ih fun x hx => hascii x (List.mem_cons_of_mem c hx)
        simp [byteLen, hc] at ht ⊢
        omega
  · simp [validate_message_content_optional, htrim]
  · cases hasAtt <;> simp [validate_message_content_optional, htrim]
  · cases hasAtt <;> simp [validate_message_content_optional]

theorem validate_message_content_boundary_witness :
    validate_message_content (List.replicate 4000 'a') = .ok () ∧
    validate_message_content (List.replicate 4001 'a') =
      .error (.badRequest "Message must be between 1 and 4000 characters") := by
  have h1 : (rustTrim (List.replicate 4000 'a')).isEmpty = false := by
    rw [rustTrim_replicate 4000 'a' (by decide)]; decide
  have h2 : (rustTrim (List.replicate 4001 'a')).isEmpty = false := by
    rw [rustTrim_replicate 4001 'a' (by decide)]; decide
  have hb1 : byteLen (List.replicate 4000 'a') = 4000 := by
    rw [byteLen_replicate]; decide
  have hb2 : byteLen (List.replicate 4001 'a') = 4001 := by
    rw [byteLen_replicate]; decide
  exact ⟨((validate_message_content_boundary (List.replicate 4000 'a') true).1 h1).1 hb1,
    ((validate_message_content_boundary (List.replicate 4001 'a') true).1 h2).2 hb2⟩

/-! ### C2: invite consumption (`database::use_invite_code`) -/

/-- Model of `models::Invite` (the fields read by the conditional UPDATE). -/
structure Invite where
  code : List Char
  max_uses : Option Int
  uses : Int
  expires_at : Option Int
  revoked : Bool
  deriving DecidableEq, Repr

/-- The WHERE clause of the UPDATE in `database::use_invite_code`: the code
matches, the invite is not revoked, `uses < max_uses` when `max_uses` is
set, and `expires_at > NOW()` (strict) when `expires_at` is set. -/
def inviteConsumable (now : Int) (code : List Char) (inv : Invite) : Bool :=
  inv.code == code && !inv.revoked &&
    (match inv.max_uses with
     | none => true
     | some m => inv.uses < m) &&
    (match inv.expires_at with
     | none => true
     | some e => now < e)

/-- `database::use_invite_code`: run the conditional
`UPDATE invites SET uses = uses + 1 WHERE ...` against the table and report
the error when zero rows were affected. -/
def use_invite_code (table : List Invite) (code : List Char) (now : Int) :
    Except AppError Unit × List Invite :=
  let updated := table.map fun inv =>
    if inviteConsumable now code inv then { inv with uses := inv.uses + 1 } else inv
  let affected := (table.filter (inviteConsumable now code)).length
  if affected == 0 then
    (.error (.badRequest "Invalid, expired, or fully used invite code"), updated)
  else
    (.ok (), updated)

/-- Serialized model of `N` (concurrent, DB-serialized) consumptions of the
same code: apply `use_invite_code` `n` times, counting successes. -/
def useRepeatedly (n : Nat) (table : List Invite) (code : List Char) (now : Int) :
    Nat × List Invite :=
  match n with
  | 0 => (0, table)
  | m + 1 =>
      let step := use_invite_code table code now
      let rest := useRepeatedly m step.2 code now
      ((match step.1 with
        | .ok _ => 1
        | .error _ => 0) + rest.1, rest.2)

theorem map_consume_id (table : List Invite) (code : List Char) (now : Int)
    (h : ∀ j ∈ table, inviteConsumable now code j = false) :
    (table.map fun inv =>
      if inviteConsumable now code inv then { inv with uses := inv.uses + 1 } else inv)
      = table := by
  induction table with
  | nil => rfl
  | cons a t ih =>
      simp only [List.map_cons, h a (List.mem_cons_self a t)]
      exact congrArg (a :: ·) (ih fun j hj => h j (List.mem_cons_of_mem a hj))

theorem use_invite_code_unaffected (table : List Invite) (code : List Char)
    (now : Int) (h : ∀ j ∈ table, inviteConsumable now code j = false) :
    use_invite_code table code now =
      (.error (.badRequest "Invalid, expired, or fully used invite code"), table) := by
  unfold use_invite_code
  have hfil : table.filter (inviteConsumable now code) = [] :=
    List.filter_eq_nil_iff.2 fun j hj => by simp [h j hj]
  simp [map_consume_id table code now h, hfil]

theorem use_invite_code_unique (pre post : List Invite) (inv : Invite)
    (code : List Char) (now : Int)
    (hpre : ∀ j ∈ pre, inviteConsumable now code j = false)
    (hpost : ∀ j ∈ post, inviteConsumable now code j = false) :
    use_invite_code (pre ++ inv :: post) code now =
      if inviteConsumable now code inv then
        (.ok (), pre ++ { inv with uses := inv.uses + 1 } :: post)
      else
        (.error (.badRequest "Invalid, expired, or fully used invite code"),
          pre ++ inv :: post) := by
  have hfpre : pre.filter (inviteConsumable now code) = [] :=
    List.filter_eq_nil_iff.2 fun j hj => by simp [hpre j hj]
  have hfpost : post.filter (inviteConsumable now code) = [] :=
    List.filter_eq_nil_iff.2 fun j hj => by simp [hpost j hj]
  unfold use_invite_code
  rw [List.map_append, List.map_cons, map_consume_id pre code now hpre,
    map_consume_id post code now hpost, List.filter_append, List.filter_cons,
    hfpre, hfpost]
  by_cases hc : inviteConsumable now code inv = true
  · simp [hc]
  · have hc' : inviteConsumable now code inv = false := by
      cases h : inviteConsumable now code inv
      · rfl
      · exact absurd h hc
    simp [hc']

theorem useRepeatedly_absorbing (n : Nat) (table : List Invite) (code : List Char)
    (now : Int) (h : ∀ j ∈ table, inviteConsumable now code j = false) :
    useRepeatedly n table code now = (0, table) := by
  induction n with
  | zero => rfl
  | succ m ih => simp [useRepeatedly, use_invite_code_unaffected table code now h, ih]

theorem inviteConsumable_iff (inv : Invite) (code : List Char) (now : Int)
    (hcode : inv.code = code) :
    inviteConsumable now code inv = true ↔
      (inv.revoked = false ∧ (∀ m, inv.max_uses = some m → inv.uses < m) ∧
        (∀ e, inv.expires_at = some e → now < e)) := by
  subst hcode
  unfold inviteConsumable
  cases hmu : inv.max_uses <;> cases hex : inv.expires_at <;>
    cases hrv : inv.revoked <;> simp [hmu, hex, hrv]

/-- C2: `use_invite_code` increments the invite's `uses` by exactly 1 iff
the row exists (unique code), is not revoked, has `uses < max_uses` (or no
`max_uses`), and `expires_at` is strictly later than `now` (or no
`expires_at`); otherwise it returns the error
"Invalid, expired, or fully used invite code" and leaves the table
unchanged.  An invite with `expires_at = now` is treated as expired, and
serialized consumptions of a fresh 1-use code succeed exactly once. -/
theorem invite_consumption (pre post : List Invite) (inv : Invite)
    (code : List Char) (now : Int)
    (hcode : inv.code = code)
    (huniq : ∀ j ∈ pre ++ post, inviteConsumable now code j = false) :
    (((use_invite_code (pre ++ inv :: post) code now).1 = .ok ()) ↔
      (inv.revoked = false ∧ (∀ m, inv.max_uses = some m → inv.uses < m) ∧
        (∀ e, inv.expires_at = some e → now < e))) ∧
    ((use_invite_code (pre ++ inv :: post) code now).1 = .ok () →
      (use_invite_code (pre ++ inv :: post) code now).2
        = pre ++ { inv with uses := inv.uses + 1 } :: post) ∧
    ((use_invite_code (pre ++ inv :: post) code now).1 ≠ .ok () →
      use_invite_code (pre ++ inv :: post) code now
        = (.error (.badRequest "Invalid, expired, or fully used invite code"),
            pre ++ inv :: post)) ∧
    (inv.expires_at = some now →
      (use_invite_code (pre ++ inv :: post) code now).1
        = .error (.badRequest "Invalid, expired, or fully used invite code")) ∧
    (inv.uses = 0 → inv.max_uses = some 1 → inv.revoked = false →
      inv.expires_at = none →
      ∀ n : Nat, (useRepeatedly (n + 1) [inv] code now).1 = 1) := by
  have hpre : ∀ j ∈ pre, inviteConsumable now code j = false := fun j hj =>
    huniq j (List.mem_append_left post hj)
  have hpost : ∀ j ∈ post, inviteConsumable now code j = false := fun j hj =>
    huniq j (List.mem_append_right pre hj)
  have hkey := use_invite_code_unique pre post inv code now hpre hpost
  have hiff := inviteConsumable_iff inv code now hcode
  refine ⟨?_, ?_, ?_, ?_, ?_⟩
  · rw [hkey]
    by_cases hc : inviteConsumable now code inv = true
    · exact iff_of_true (by simp [hc]) (hiff.1 hc)
    · have h3 := hiff.not.1 hc
      simp only [hc, if_neg]
      constructor
      · intro h; exact absurd h (by simp)
      · intro h; exact absurd h h3
  · rw [hkey]
    by_cases hc : inviteConsumable now code inv = true
    · simp [hc]
    · simp [hc]
  · rw [hkey]
    by_cases hc : inviteConsumable now code inv = true
    · simp [hc]
    · simp [hc]
  · intro hex
    rw [hkey]
    have hc : inviteConsumable now code inv = false := by
      unfold inviteConsumable
      rw [hex]
      simp
    simp [hc]
  · intro hu hm hr he n
    have hc : inviteConsumable now code inv = true := by
      apply hiff.2
      refine ⟨hr, fun m hsome => ?_, fun e hsome => ?_⟩
      · rw [hm] at hsome
        cases hsome
        rw [hu]
        norm_num
      · rw [he] at hsome
        cases hsome
    have hstep : use_invite_code [inv] code now
        = (.ok (), [{ inv with uses := inv.uses + 1 }]) := by
      have := use_invite_code_unique [] [] inv code now (by simp) (by simp)
      simpa [hc] using this
    have habs : useRepeatedly n [{ inv with uses := inv.uses + 1 }] code now
        = (0, [{ inv with uses := inv.uses + 1 }]) := by
      apply useRepeatedly_absorbing
      intro j hj
      rcases List.mem_singleton.1 hj with rfl
      unfold inviteConsumable
      rw [hm]
      simp [hu]
    simp [useRepeatedly, hstep, habs]

theorem invite_consumption_witness :
    ((use_invite_code
        [{ code := ['a', 'b'], max_uses := some 1, uses := 0,
           expires_at := none, revoked := false }] ['a', 'b'] 7).1 = .ok ()) ∧
    (useRepeatedly 3
        [{ code := ['a', 'b'], max_uses := some 1, uses := 0,
           expires_at := none, revoked := false }] ['a', 'b'] 7).1 = 1 := by
  have h := invite_consumption [] []
    { code := ['a', 'b'], max_uses := some 1, uses := 0,
      expires_at := none, revoked := false } (['a', 'b']) 7 rfl (by simp)
  constructor
  · exact h.1.2 ⟨rfl, fun m hm => by cases hm; norm_num, fun e he => by cases he⟩
  · exact h.2.2.2.2 rfl rfl rfl rfl 2

/-! ### C3: registration (`auth_routes::register`) -/

def MIN_USERNAME_LENGTH : Nat := 2

def MAX_USERNAME_LENGTH : Nat := 32

def MAX_EMAIL_LENGTH : Nat := 254

def MIN_PASSWORD_LENGTH : Nat := 8

def MAX_PASSWORD_LENGTH : Nat := 128

/-- `validation::validate_username`. -/
def validate_username (name : List Char) : Except AppError (List Char) :=
  let trimmed := rustTrim name
  if byteLen trimmed < MIN_USERNAME_LENGTH || MAX_USERNAME_LENGTH < byteLen trimmed then
    .error (.badRequest "Username must be between 2 and 32 characters")
  else if !(trimmed.all fun c => c.isAlphanum || c == '_' || c == '-') then
    .error (.badRequest
      "Username can only contain ASCII letters, numbers, underscores, and hyphens")
  else
    .ok trimmed

/-- Rust `str::contains(pat)` for a literal pattern: substring search. -/
def containsSeq (pat : List Char) : List Char → Bool
  | [] => pat.isEmpty
  | c :: rest => pat.isPrefixOf (c :: rest) || containsSeq pat rest

/-- Rust `str::split_once`: split at the first occurrence of `sep`. -/
def splitOnce (sep : Char) : List Char → Option (List Char × List Char)
  | [] => none
  | c :: rest =>
      if c == sep then some ([], rest)
      else
        match splitOnce sep rest with
        | none => none
        | some (a, b) => some (c :: a, b)

/-- `validation::validate_email`.  (Rust lowercases with the full Unicode
`str::to_lowercase`; this model lowercases ASCII, which agrees on every
ASCII email.) -/
def validate_email (email : List Char) : Except AppError (List Char) :=
  let e := (rustTrim email).map Char.toLower
  if e.isEmpty || MAX_EMAIL_LENGTH < byteLen e then
    .error (.badRequest "Invalid email address")
  else
    match splitOnce '@' e with
    | none => .error (.badRequest "Invalid email address")
    | some (localPart, domain) =>
        if localPart.isEmpty || localPart.contains ' ' || byteLen domain < 3 ||
            domain.contains ' ' || !domain.contains '.' ||
            domain.head? == some '.' || domain.getLast? == some '.' ||
            containsSeq ['.', '.'] domain then
          .error (.badRequest "Invalid email address")
        else
          .ok e

/-- `validation::validate_password`. -/
def validate_password (pw : List Char) : Except AppError Unit :=
  if byteLen pw < MIN_PASSWORD_LENGTH then
    .error (.badRequest "Password must be at least 8 characters")
  else if MAX_PASSWORD_LENGTH < byteLen pw then
    .error (.badRequest "Password must be at most 128 characters")
  else
    .ok ()

/-- Model of `permissions::Role`. -/
inductive Role where
  | member
  | moderator
  | admin
  | owner
  deriving DecidableEq, Repr

/-- The discriminant order used by the derived `PartialOrd`/`Ord`
(Member=0, Moderator=1, Admin=2, Owner=3). -/
def Role.level : Role → Nat
  | .member => 0
  | .moderator => 1
  | .admin => 2
  | .owner => 3

/-- The parts of the persisted state that `register` touches. -/
structure RegDB where
  settings : List (List Char × List Char)
  invites : List Invite
  users : List (List Char × List Char)
  deriving DecidableEq

/-- Model of `auth::RegisterRequest`. -/
structure RegisterRequest where
  username : List Char
  email : List Char
  password : List Char
  invite_code : Option (List Char)

/-- `database::get_server_setting`: look the key up, `NotFound` when the
row is absent (the source interpolates the key into the message). -/
def get_server_setting (settings : List (List Char × List Char))
    (key : List Char) : Except AppError (List Char) :=
  match settings.find? fun kv => kv.1 == key with
  | some kv => .ok kv.2
  | none => .error (.notFound "Setting not found")

/-- `database::create_user`: relies on DB unique constraints; constraint
violations are mapped to the conflict errors. -/
def create_user (users : List (List Char × List Char))
    (username email : List Char) :
    Except AppError (List (List Char × List Char)) :=
  if users.any fun u => u.1 == username then
    .error (.conflict "Username already taken")
  else if users.any fun u => u.2 == email then
    .error (.conflict "Email already in use")
  else
    .ok (users ++ [(username, email)])

/-- `auth_routes::register`: validate the payload, gate on
`registration_mode` (consuming an invite use when `invite_only`), compute
the role from the user count, insert the user.  Password hashing and JWT
issuance are out-of-scope primitives and do not affect the role or any
table modelled here, so they are elided. -/
def register (db : RegDB) (payload : RegisterRequest) (now : Int) :
    Except AppError (RegDB × Role) :=
  match validate_username payload.username with
  | .error e => .error e
  | .ok username =>
  match validate_email payload.email with
  | .error e => .error e
  | .ok email =>
  match validate_password payload.password with
  | .error e => .error e
  | .ok _ =>
  match get_server_setting db.settings ("registration_mode".data) with
  | .error e => .error e
  | .ok regMode =>
  let gate : Except AppError (List Invite) :=
    if regMode == ("invite_only".data) then
      match payload.invite_code with
      | none => .error (.forbidden "Registration requires an invite code")
      | some code =>
          match use_invite_code db.invites code now with
          | (.ok _, t) => .ok t
          | (.error e, _) => .error e
    else
      .ok db.invites
  match gate with
  | .error e => .error e
  | .ok invites =>
  let role := if db.users.length == 0 then Role.owner else Role.member
  match create_user db.users username email with
  | .error e => .error e
  | .ok users => .ok ({ db with invites := invites, users := users }, role)

/-- Concrete state: empty users table, `registration_mode = invite_only`. -/
def regDB0 : RegDB :=
  { settings := [("registration_mode".data, "invite_only".data)]
    invites := []
    users := [] }

/-- The spec's first-user payload, carrying no invite code. -/
def regPayload0 : RegisterRequest :=
  { username := "alice".data
    email := "a@x.io".data
    password := "correcthorse".data
    invite_code := none }

/-- C3 fails as stated: with an **empty users table** but
`registration_mode = invite_only` and no invite code, `register` returns
403 "Registration requires an invite code" instead of succeeding — the
mode gate runs before the first-user check, so the first user does not
bypass the invite requirement. -/
theorem register_first_user_counterexample :
    regDB0.users = [] ∧
    register regDB0 regPayload0 0 =
      .error (.forbidden "Registration requires an invite code") :=
  ⟨rfl, rfl⟩

theorem role_iff_empty (users : List (List Char × List Char)) :
    ((if users = [] then Role.owner else Role.member) = Role.owner)
      ↔ users = [] := by
  by_cases h : users = []
  · simp [h]
  · rw [if_neg h]
    constructor
    · intro hc
      exact absurd hc (by decide)
    · intro hc
      exact absurd hc h

/-- C3 amended: the `registration_mode` gate runs before the first-user
check, so when the mode is `invite_only` every request — including the
very first user's — must carry a valid invite code whose use is consumed;
a request without a code fails with 403.  When the gate passes, the
created user's role is Owner exactly when the users table was empty, and
Member otherwise. -/
theorem register_role_and_invite_gate (db : RegDB) (payload : RegisterRequest)
    (now : Int) (uname email regMode : List Char)
    (hU : validate_username payload.username = .ok uname)
    (hE : validate_email payload.email = .ok email)
    (hP : validate_password payload.password = .ok ())
    (hM : get_server_setting db.settings ("registration_mode".data) = .ok regMode) :
    (regMode = "invite_only".data → payload.invite_code = none →
      register db payload now =
        .error (.forbidden "Registration requires an invite code")) ∧
    (regMode = "invite_only".data → ∀ code, payload.invite_code = some code →
      (∀ e, (use_invite_code db.invites code now).1 = .error e →
        register db payload now = .error e) ∧
      ((use_invite_code db.invites code now).1 = .ok () →
        register db payload now =
          (create_user db.users uname email).map fun users =>
            ({ db with
                invites := (use_invite_code db.invites code now).2
                users := users },
              if db.users.length == 0 then Role.owner else Role.member))) ∧
    (regMode ≠ "invite_only".data →
      register db payload now =
        (create_user db.users uname email).map fun users =>
          ({ db with users := users },
            if db.users.length == 0 then Role.owner else Role.member)) ∧
    (∀ db' role, register db payload now = .ok (db', role) →
      (role = Role.owner ↔ db.users = [])) := by
  have hmain : register db payload now =
      match (if regMode == ("invite_only".data) then
        match payload.invite_code with
        | none => .error (.forbidden "Registration requires an invite code")
        | some code =>
            match use_invite_code db.invites code now with
            | (.ok _, t) => .ok t
            | (.error e, _) => .error e
        else .ok db.invites : Except AppError (List Invite)) with
      | .error e => .error e
      | .ok invites =>
        match create_user db.users uname email with
        | .error e => .error e
        | .ok users => .ok ({ db with invites := invites, users := users },
            if db.users.length == 0 then Role.owner else Role.member) := by
    rw [register, hU, hE, hP, hM]
  have hgate1 : regMode = "invite_only".data → payload.invite_code = none →
      register db payload now =
        .error (.forbidden "Registration requires an invite code") := by
    intro hmode hnone
    rw [hmain, hnone]
    simp [hmode]
  have hgate2 : regMode = "invite_only".data →
      ∀ code, payload.invite_code = some code →
      (∀ e, (use_invite_code db.invites code now).1 = .error e →
        register db payload now = .error e) ∧
      ((use_invite_code db.invites code now).1 = .ok () →
        register db payload now =
          (create_user db.users uname email).map fun users =>
            ({ db with
                invites := (use_invite_code db.invites code now).2
                users := users },
              if db.users.length == 0 then Role.owner else Role.member)) := by
    intro hmode code hsome
    constructor
    · intro e herr
      rcases hrun : use_invite_code db.invites code now with ⟨r, t⟩
      rw [hrun] at herr
      simp at herr
      rw [hmain, hsome]
      simp [hmode, hrun, herr]
    · intro hok
      rcases hrun : use_invite_code db.invites code now with ⟨r, t⟩
      rw [hrun] at hok
      simp at hok
      rw [hmain, hsome]
      subst hok
      simp [hmode, hrun]
      cases hcu : create_user db.users uname email <;> simp [Except.map]
  have hopen : regMode ≠ "invite_only".data →
      register db payload now =
        (create_user db.users uname email).map fun users =>
          ({ db with users := users },
            if db.users.length == 0 then Role.owner else Role.member) := by
    intro hmode
    have hb : (regMode == ("invite_only".data)) = false := by
      simp [hmode]
    rw [hmain, hb]
    simp only [Bool.false_eq_true, if_false]
    cases hcu : create_user db.users uname email <;> simp [Except.map]
  refine ⟨hgate1, hgate2, hopen, ?_⟩
  intro db' role hok
  suffices hrole : (if db.users = [] then Role.owner else Role.member) = role by
    rw [← hrole]
    exact role_iff_empty db.users
  by_cases hmode : regMode = "invite_only".data
  · cases hcode : payload.invite_code with
    | none =>
        rw [hgate1 hmode hcode] at hok
        simp at hok
    | some code =>
        have h2 := hgate2 hmode code hcode
        cases hr : (use_invite_code db.invites code now).1 with
        | error e =>
            rw [h2.1 e hr] at hok
            simp at hok
        | ok u =>
            have hr' : (use_invite_code db.invites code now).1 = .ok () := by
              cases u
              exact hr
            rw [h2.2 hr'] at hok
            cases hcu : create_user db.users uname email with
            | error e =>
                rw [hcu] at hok
                simp [Except.map] at hok
            | ok users =>
                rw [hcu] at hok
                simp [Except.map] at hok
                first
                | exact hok.2.symm
                | exact hok.2
  · rw [hopen hmode] at hok
    cases hcu : create_user db.users uname email with
    | error e =>
        rw [hcu] at hok
        simp [Except.map] at hok
    | ok users =>
        rw [hcu] at hok
        simp [Except.map] at hok
        first
        | exact hok.2.symm
        | exact hok.2

/-- State with an empty users table and `registration_mode = open`. -/
def regDB1 : RegDB :=
  { settings := [("registration_mode".data, "open".data)]
    invites := []
    users := [] }

theorem register_role_and_invite_gate_witness :
    register regDB1 regPayload0 0 =
      (create_user regDB1.users ("alice".data) ("a@x.io".data)).map fun users =>
        ({ regDB1 with users := users },
          if regDB1.users.length == 0 then Role.owner else Role.member) :=
  (register_role_and_invite_gate regDB1 regPayload0 0 ("alice".data)
    ("a@x.io".data) ("open".data) rfl rfl rfl rfl).2.2.1 (by decide)

/-! ### C8: message token bucket (`AppState::check_message_rate_limit`)

The Rust bucket stores `f64` tokens; every quantity the claim exercises
(integers up to 5, differences of such) is exactly representable in `f64`
and the operations used (`+`, `-`, `min`, comparison) are exact on them,
so the bucket is modelled over `ℚ`.  `Instant` is modelled as a rational
timestamp; `Instant::duration_since` saturates at zero. -/

/-- Model of `models::RateLimitState`. -/
structure RateLimitState where
  tokens : ℚ
  last_refill : ℚ

/-- `validation::MESSAGE_RATE_LIMIT`. -/
def MESSAGE_RATE_LIMIT : ℚ := 5

/-- `validation::MESSAGE_RATE_REFILL_PER_SEC`. -/
def MESSAGE_RATE_REFILL_PER_SEC : ℚ := 1

def lookupBucket (buckets : List (Nat × RateLimitState)) (u : Nat) :
    Option RateLimitState :=
  (buckets.find? fun kv => kv.1 == u).map fun kv => kv.2

def upsertBucket (u : Nat) (v : RateLimitState) :
    List (Nat × RateLimitState) → List (Nat × RateLimitState)
  | [] => [(u, v)]
  | kv :: rest => if kv.1 == u then (u, v) :: rest else kv :: upsertBucket u v rest

/-- `AppState::check_message_rate_limit`: create the entry full on first
use, refill by elapsed seconds × refill rate capped at the limit, set
`last_refill := now`, then consume one token when at least one is
available, returning whether the send is allowed. -/
def check_message_rate_limit (buckets : List (Nat × RateLimitState))
    (u : Nat) (now : ℚ) : Bool × List (Nat × RateLimitState) :=
  let entry := (lookupBucket buckets u).getD
    { tokens := MESSAGE_RATE_LIMIT, last_refill := now }
  let elapsed := max (now - entry.last_refill) 0
  let tokens := min (entry.tokens + elapsed * MESSAGE_RATE_REFILL_PER_SEC)
    MESSAGE_RATE_LIMIT
  if 1 ≤ tokens then
    (true, upsertBucket u { tokens := tokens - 1, last_refill := now } buckets)
  else
    (false, upsertBucket u { tokens := tokens, last_refill := now } buckets)

/-- `n` sends by the same user in immediate succession. -/
def repeatedSends : Nat → List (Nat × RateLimitState) → Nat → ℚ → List Bool
  | 0, _, _, _ => []
  | n + 1, buckets, u, now =>
      let step := check_message_rate_limit buckets u now
      step.1 :: repeatedSends n step.2 u now

/-- C8: the rate limiter is a token bucket: a user's bucket is created
full (5 tokens) on first use; on later uses it refills by the elapsed
seconds times 1 token/s capped at 5, consumes one token, and allows the
send exactly when at least one token was available after the refill;
consequently a fresh user gets 5 immediate sends and the 6th immediate
send is denied. -/
theorem rate_limit_token_bucket (buckets : List (Nat × RateLimitState))
    (u : Nat) (now : ℚ) :
    (lookupBucket buckets u = none →
      check_message_rate_limit buckets u now =
        (true, upsertBucket u { tokens := 4, last_refill := now } buckets)) ∧
    (∀ t l, lookupBucket buckets u = some { tokens := t, last_refill := l } →
      l ≤ now →
      (check_message_rate_limit buckets u now).1 = decide (1 ≤ min (t + (now - l)) 5) ∧
      (check_message_rate_limit buckets u now).2 =
        upsertBucket u
          { tokens := min (t + (now - l)) 5 -
              (if 1 ≤ min (t + (now - l)) 5 then 1 else 0)
            last_refill := now } buckets) ∧
    repeatedSends 6 [] u now = [true, true, true, true, true, false] := by
  refine ⟨fun h => ?_, fun t l h hl => ?_, ?_⟩
  · rw [check_message_rate_limit, h]
    norm_num [MESSAGE_RATE_LIMIT, MESSAGE_RATE_REFILL_PER_SEC]
  · have hmax : max (now - l) 0 = now - l := max_eq_left (by linarith)
    rw [check_message_rate_limit, h] at *
    simp only [Option.getD_some, hmax, MESSAGE_RATE_LIMIT,
      MESSAGE_RATE_REFILL_PER_SEC, mul_one]
    by_cases hc : 1 ≤ min (t + (now - l)) 5
    · simp [hc]
    · simp [hc]
  · have step1 : check_message_rate_limit [] u now =
        (true, [(u, { tokens := 4, last_refill := now })]) := by
      rw [check_message_rate_limit]
      norm_num [lookupBucket, upsertBucket, MESSAGE_RATE_LIMIT,
        MESSAGE_RATE_REFILL_PER_SEC]
    have later : ∀ t : ℚ, t ≤ 5 →
        check_message_rate_limit [(u, { tokens := t, last_refill := now })] u now =
          if 1 ≤ t then
            (true, [(u, { tokens := t - 1, last_refill := now })])
          else
            (false, [(u, { tokens := t, last_refill := now })]) := by
      intro t ht
      rw [check_message_rate_limit]
      simp only [lookupBucket, List.find?, beq_self_eq_true, Option.map_some,
        Option.getD_some, sub_self, max_self, MESSAGE_RATE_REFILL_PER_SEC,
        MESSAGE_RATE_LIMIT, zero_mul, add_zero, min_eq_left ht]
      by_cases hc : 1 ≤ t
      · simp [upsertBucket, hc]
        exact ht
      · simp [upsertBucket, hc]
        exact ht
    have s4 := later 4 (by norm_num)
    have s3 := later 3 (by norm_num)
    have s2 := later 2 (by norm_num)
    have s1 := later 1 (by norm_num)
    have s0 := later 0 (by norm_num)
    norm_num at s4 s3 s2 s1 s0
    simp [repeatedSends, step1, s4, s3, s2, s1, s0]

theorem rate_limit_token_bucket_witness :
    (check_message_rate_limit [(0, { tokens := 3, last_refill := 0 })] 0 1).1
      = decide (1 ≤ min ((3:ℚ) + (1 - 0)) 5) :=
  ((rate_limit_token_bucket [(0, { tokens := 3, last_refill := 0 })] 0 1).2.1
    3 0 rfl zero_le_one).1

/-! ### C1: voice-state tables (`voice::join_voice_channel`) -/

/-- Association-list model of a `DashMap` keyed by id: `insert`. -/
def alInsert {α : Type} (k : Nat) (v : α) : List (Nat × α) → List (Nat × α)
  | [] => [(k, v)]
  | kv :: rest => if kv.1 == k then (k, v) :: rest else kv :: alInsert k v rest

/-- Association-list model of a `DashMap` keyed by id: `get`. -/
def alLookup {α : Type} (k : Nat) : List (Nat × α) → Option α
  | [] => none
  | kv :: rest => if kv.1 == k then some kv.2 else alLookup k rest

/-- Model of `models::VoiceState`. -/
structure VoiceState where
  user_id : Nat
  username : List Char
  channel_id : Nat
  session_id : Nat
  is_muted : Bool
  is_deafened : Bool
  is_screen_sharing : Bool
  joined_at : Int
  deriving DecidableEq

/-- Model of `models::VoiceSession`. -/
structure VoiceSession where
  session_id : Nat
  user_id : Nat
  channel_id : Nat
  created_at : Int
  deriving DecidableEq

/-- `AppState.voice_states : DashMap<ChannelId, DashMap<UserId, VoiceState>>`. -/
def VoiceTable : Type := List (Nat × List (Nat × VoiceState))

/-- `voice::join_voice_channel`: build the fresh `VoiceState` and
`VoiceSession`, insert the state into the target channel's inner map
(created on demand via `entry().or_insert_with`), insert the session,
and return the state.  (The `voice_user_joined` global broadcast does
not touch the tables and is elided.) -/
def join_voice_channel (voice_states : VoiceTable)
    (voice_sessions : List (Nat × VoiceSession)) (userId : Nat)
    (username : List Char) (channelId sessionId : Nat) (now : Int) :
    VoiceTable × List (Nat × VoiceSession) × VoiceState :=
  let voice_state : VoiceState :=
    { user_id := userId
      username := username
      channel_id := channelId
      session_id := sessionId
      is_muted := false
      is_deafened := false
      is_screen_sharing := false
      joined_at := now }
  let voice_session : VoiceSession :=
    { session_id := sessionId
      user_id := userId
      channel_id := channelId
      created_at := now }
  let inner := (alLookup channelId voice_states).getD []
  (alInsert channelId (alInsert userId voice_state inner) voice_states,
    alInsert sessionId voice_session voice_sessions,
    voice_state)

/-- `u` appears in channel `c` of the voice-state tables. -/
def inVoiceChannel (voice_states : VoiceTable) (channelId userId : Nat) : Bool :=
  match alLookup channelId voice_states with
  | none => false
  | some users => (alLookup userId users).isSome

theorem alLookup_alInsert_self {α : Type} (k : Nat) (v : α) (l : List (Nat × α)) :
    alLookup k (alInsert k v l) = some v := by
  induction l with
  | nil => simp [alInsert, alLookup]
  | cons kv rest ih =>
      by_cases h : kv.1 == k
      · simp [alInsert, alLookup, h]
      · simp only [alInsert, alLookup, h, Bool.false_eq_true, if_false]
        exact ih

theorem alLookup_alInsert_ne {α : Type} (k k2 : Nat) (v : α)
    (l : List (Nat × α)) (h : k ≠ k2) :
    alLookup k (alInsert k2 v l) = alLookup k l := by
  have hb : (k2 == k) = false := by
    simp
    exact fun hc => h hc.symm
  induction l with
  | nil => simp [alInsert, alLookup, hb]
  | cons kv rest ih =>
      by_cases hc : kv.1 == k2
      · have hk : (kv.1 == k) = false := by
          simp at hc ⊢
          rw [hc]
          exact fun hd => h hd.symm
        simp [alInsert, alLookup, hc, hk, hb]
      · simp only [alInsert, alLookup, hc, Bool.false_eq_true, if_false]
        by_cases hk : kv.1 == k
        · simp [alLookup, hk]
        · simp only [alLookup, hk, Bool.false_eq_true, if_false]
          exact ih

/-- C1 fails on the code: `join_voice_channel` only inserts into the target
channel's map and never removes the joining user's other memberships
(`AppState::remove_user_from_voice` has no caller), so a user already in
channel `A` who joins channel `B ≠ A` is afterwards a member of **both**
channels, violating the single-voice-channel invariant. -/
theorem join_does_not_evict (voice_states : VoiceTable)
    (voice_sessions : List (Nat × VoiceSession)) (u : Nat) (uname : List Char)
    (A B sessionId : Nat) (now : Int) (hne : A ≠ B)
    (hA : inVoiceChannel voice_states A u = true) :
    inVoiceChannel
      (join_voice_channel voice_states voice_sessions u uname B sessionId now).1
      A u = true ∧
    inVoiceChannel
      (join_voice_channel voice_states voice_sessions u uname B sessionId now).1
      B u = true := by
  constructor
  · rw [inVoiceChannel, join_voice_channel]
    simp only
    rw [alLookup_alInsert_ne A B _ voice_states hne]
    exact hA
  · rw [inVoiceChannel, join_voice_channel]
    simp only
    rw [alLookup_alInsert_self]
    simp [alLookup_alInsert_self]

theorem join_does_not_evict_witness :
    inVoiceChannel
      (join_voice_channel
        [(1, [(7, { user_id := 7, username := [], channel_id := 1,
                    session_id := 0, is_muted := false, is_deafened := false,
                    is_screen_sharing := false, joined_at := 0 })])]
        [] 7 [] 2 1 5).1 1 7 = true ∧
    inVoiceChannel
      (join_voice_channel
        [(1, [(7, { user_id := 7, username := [], channel_id := 1,
                    session_id := 0, is_muted := false, is_deafened := false,
                    is_screen_sharing := false, joined_at := 0 })])]
        [] 7 [] 2 1 5).1 2 7 = true :=
  join_does_not_evict
    [(1, [(7, { user_id := 7, username := [], channel_id := 1,
                session_id := 0, is_muted := false, is_deafened := false,
                is_screen_sharing := false, joined_at := 0 })])]
    [] 7 [] 1 2 1 5 (by decide) (by decide)

/-! ### C4: moderation actions and the ban/mute cache
(`admin::moderation`, `models::AppState`) -/

/-- `Display for Role` in `permissions.rs`. -/
def Role.display : Role → String
  | .owner => "owner"
  | .admin => "admin"
  | .moderator => "moderator"
  | .member => "member"

/-- `permissions::require_role` (`>=` on the derived discriminant order). -/
def require_role (userRole minimum : Role) : Except AppError Role :=
  if minimum.level ≤ userRole.level then
    .ok userRole
  else
    .error (.forbidden ("Requires " ++ minimum.display ++ " role or higher"))

/-- `permissions::require_higher_role` (strict `>`). -/
def require_higher_role (actorRole targetRole : Role) : Except AppError Unit :=
  if targetRole.level < actorRole.level then
    .ok ()
  else
    .error (.forbidden "Cannot moderate a user with equal or higher role")

/-- The in-memory concurrent tables of `models::AppState` (struct
`AppState` in `models.rs`): presence, nested voice states, message rate
limits and the WebAuthn challenge tables.  The struct declares **no**
banned-users or muted-users set (although `main.rs` calls
`state.cache_ban`, `state.cache_mute`, `state.banned_users` and
`state.muted_users`). -/
structure AppStateMem where
  online_users : List (Nat × List Char)
  voice_states : VoiceTable
  message_rate_limits : List (Nat × RateLimitState)
  webauthn_reg_state : List (Nat × Int)
  webauthn_auth_state : List (List Char × Int)

/-- Model of `models::Ban`. -/
structure Ban where
  id : Nat
  user_id : Nat
  banned_by : Nat
  reason : Option (List Char)
  expires_at : Option Int
  created_at : Int
  deriving DecidableEq

/-- Model of `models::Mute`. -/
structure Mute where
  id : Nat
  user_id : Nat
  muted_by : Nat
  reason : Option (List Char)
  expires_at : Option Int
  created_at : Int
  deriving DecidableEq

/-- Model of `models::ModLogEntry`; the formatted
`"duration: {h} hours"` details string is modelled by its numeric
payload. -/
structure ModLogEntry where
  id : Nat
  action : String
  moderator_id : Nat
  target_user_id : Nat
  reason : Option (List Char)
  details : Option Int
  created_at : Int
  deriving DecidableEq

/-- Model of `models::BanRequest` / `models::MuteRequest`. -/
structure BanRequest where
  user_id : Nat
  reason : Option (List Char)
  duration_hours : Option Int
  deriving DecidableEq

inductive DbWrite where
  | createBan (ban : Ban)
  | removeBan (userId : Nat)
  | createMute (mute : Mute)
  | removeMute (userId : Nat)
  | modLog (entry : ModLogEntry)
  deriving DecidableEq

/-- The observable side effects of a moderation handler.  The vocabulary
includes the in-memory ban/mute cache updates (`cache_ban` / `cache_mute`
as invoked from `main.rs`) so that their absence from a handler's effect
trace is expressible. -/
inductive Effect where
  | dbWrite (w : DbWrite)
  | cacheBanInsert (userId : Nat)
  | cacheBanRemove (userId : Nat)
  | cacheMuteInsert (userId : Nat)
  | cacheMuteRemove (userId : Nat)
  | broadcastGlobal (eventType : String)
  deriving DecidableEq

def Effect.isCacheUpdate : Effect → Bool
  | .cacheBanInsert _ => true
  | .cacheBanRemove _ => true
  | .cacheMuteInsert _ => true
  | .cacheMuteRemove _ => true
  | _ => false

/-- `admin::moderation::ban_user`: role checks, write the ban row, write
the mod-log entry, broadcast `user_banned`.  Returns the (unchanged)
in-memory state together with the trace of performed effects. -/
def ban_user (roles : Nat → Option Role) (s : AppStateMem) (actorId : Nat)
    (payload : BanRequest) (banId logId : Nat) (now : Int) :
    Except AppError (AppStateMem × List Effect) :=
  match roles actorId with
  | none => .error (.notFound "User not found")
  | some actorRole =>
  match require_role actorRole .moderator with
  | .error e => .error e
  | .ok _ =>
  match roles payload.user_id with
  | none => .error (.notFound "User not found")
  | some targetRole =>
  match require_higher_role actorRole targetRole with
  | .error e => .error e
  | .ok _ =>
    let expires_at := payload.duration_hours.map fun h => now + h * 3600
    let ban : Ban :=
      { id := banId, user_id := payload.user_id, banned_by := actorId,
        reason := payload.reason, expires_at := expires_at, created_at := now }
    let entry : ModLogEntry :=
      { id := logId, action := "ban", moderator_id := actorId,
        target_user_id := payload.user_id, reason := payload.reason,
        details := payload.duration_hours, created_at := now }
    .ok (s, [.dbWrite (.createBan ban), .dbWrite (.modLog entry),
      .broadcastGlobal "user_banned"])

/-- `admin::moderation::mute_user` (same shape as `ban_user`). -/
def mute_user (roles : Nat → Option Role) (s : AppStateMem) (actorId : Nat)
    (payload : BanRequest) (muteId logId : Nat) (now : Int) :
    Except AppError (AppStateMem × List Effect) :=
  match roles actorId with
  | none => .error (.notFound "User not found")
  | some actorRole =>
  match require_role actorRole .moderator with
  | .error e => .error e
  | .ok _ =>
  match roles payload.user_id with
  | none => .error (.notFound "User not found")
  | some targetRole =>
  match require_higher_role actorRole targetRole with
  | .error e => .error e
  | .ok _ =>
    let expires_at := payload.duration_hours.map fun h => now + h * 3600
    let mute : Mute :=
      { id := muteId, user_id := payload.user_id, muted_by := actorId,
        reason := payload.reason, expires_at := expires_at, created_at := now }
    let entry : ModLogEntry :=
      { id := logId, action := "mute", moderator_id := actorId,
        target_user_id := payload.user_id, reason := payload.reason,
        details := payload.duration_hours, created_at := now }
    .ok (s, [.dbWrite (.createMute mute), .dbWrite (.modLog entry),
      .broadcastGlobal "user_muted"])

/-- `admin::moderation::unban_user`: role check, delete the ban row
(`NotFound` when no row was deleted), mod-log entry, broadcast.
`banRowExists` stands for whether the DELETE affected a row. -/
def unban_user (roles : Nat → Option Role) (banRowExists : Bool)
    (s : AppStateMem) (actorId targetId logId : Nat) (now : Int) :
    Except AppError (AppStateMem × List Effect) :=
  match roles actorId with
  | none => .error (.notFound "User not found")
  | some actorRole =>
  match require_role actorRole .moderator with
  | .error e => .error e
  | .ok _ =>
    if banRowExists then
      let entry : ModLogEntry :=
        { id := logId, action := "unban", moderator_id := actorId,
          target_user_id := targetId, reason := none, details := none,
          created_at := now }
      .ok (s, [.dbWrite (.removeBan targetId), .dbWrite (.modLog entry),
        .broadcastGlobal "user_unbanned"])
    else
      .error (.notFound "No active ban found for this user")

/-- `admin::moderation::unmute_user` (same shape as `unban_user`). -/
def unmute_user (roles : Nat → Option Role) (muteRowExists : Bool)
    (s : AppStateMem) (actorId targetId logId : Nat) (now : Int) :
    Except AppError (AppStateMem × List Effect) :=
  match roles actorId with
  | none => .error (.notFound "User not found")
  | some actorRole =>
  match require_role actorRole .moderator with
  | .error e => .error e
  | .ok _ =>
    if muteRowExists then
      let entry : ModLogEntry :=
        { id := logId, action := "unmute", moderator_id := actorId,
          target_user_id := targetId, reason := none, details := none,
          created_at := now }
      .ok (s, [.dbWrite (.removeMute targetId), .dbWrite (.modLog entry),
        .broadcastGlobal "user_unmuted"])
    else
      .error (.notFound "No active mute found for this user")

/-- C4 fails on the code: every successful mutating moderation action
performs exactly (1) the row write, (2) the mod-log write and (3) the
global broadcast — **no in-memory ban/mute cache update** — and leaves
the state hub's in-memory tables untouched, so after `ban_user` succeeds
the state hub holds no banned-users entry for the target (indeed
`AppState` declares no such set). -/
theorem moderation_actions_never_update_cache (roles : Nat → Option Role)
    (s : AppStateMem) (actorId targetId idA idB : Nat) (now : Int)
    (payload : BanRequest) (rowExists : Bool) :
    (∀ out, ban_user roles s actorId payload idA idB now = .ok out →
      out.1 = s ∧ out.2.all (fun e => !e.isCacheUpdate) = true) ∧
    (∀ out, mute_user roles s actorId payload idA idB now = .ok out →
      out.1 = s ∧ out.2.all (fun e => !e.isCacheUpdate) = true) ∧
    (∀ out, unban_user roles rowExists s actorId targetId idB now = .ok out →
      out.1 = s ∧ out.2.all (fun e => !e.isCacheUpdate) = true) ∧
    (∀ out, unmute_user roles rowExists s actorId targetId idB now = .ok out →
      out.1 = s ∧ out.2.all (fun e => !e.isCacheUpdate) = true) := by
  refine ⟨fun out hok => ?_, fun out hok => ?_, fun out hok => ?_, fun out hok => ?_⟩
  · rw [ban_user] at hok
    repeat' split at hok
    all_goals simp_all [Effect.isCacheUpdate]
    all_goals rw [← hok]
    all_goals exact ⟨rfl, fun x hx => by fin_cases hx <;> rfl⟩
  · rw [mute_user] at hok
    repeat' split at hok
    all_goals simp_all [Effect.isCacheUpdate]
    all_goals rw [← hok]
    all_goals exact ⟨rfl, fun x hx => by fin_cases hx <;> rfl⟩
  · rw [unban_user] at hok
    repeat' split at hok
    all_goals simp_all [Effect.isCacheUpdate]
    all_goals rw [← hok]
    all_goals exact ⟨rfl, fun x hx => by fin_cases hx <;> rfl⟩
  · rw [unmute_user] at hok
    repeat' split at hok
    all_goals simp_all [Effect.isCacheUpdate]
    all_goals rw [← hok]
    all_goals exact ⟨rfl, fun x hx => by fin_cases hx <;> rfl⟩

/-- role table: user 1 is an admin, user 2 a member. -/
def modRoles (n : Nat) : Option Role :=
  if n == 1 then some .admin else if n == 2 then some .member else none

def emptyMem : AppStateMem :=
  { online_users := []
    voice_states := ([] : List (Nat × List (Nat × VoiceState)))
    message_rate_limits := []
    webauthn_reg_state := []
    webauthn_auth_state := [] }

def modOut : AppStateMem × List Effect :=
  (emptyMem,
    [.dbWrite (.createBan
      { id := 10, user_id := 2, banned_by := 1, reason := none,
        expires_at := none, created_at := 0 }),
     .dbWrite (.modLog
      { id := 11, action := "ban", moderator_id := 1, target_user_id := 2,
        reason := none, details := none, created_at := 0 }),
     .broadcastGlobal "user_banned"])

theorem moderation_actions_never_update_cache_witness :
    modOut.1 = emptyMem ∧ modOut.2.all (fun e => !e.isCacheUpdate) = true :=
  (moderation_actions_never_update_cache modRoles emptyMem 1 2 10 11 0
    { user_id := 2, reason := none, duration_hours := none } true).1 modOut rfl

/-! ### C7: HMAC-SHA256 image-URL signatures (`link_preview.rs`)

Bytes are `Nat` values below 256.  SHA-256 and HMAC are implemented from
the standard (the source uses the `sha2`/`hmac` crates); the embedding
matches the standard test vectors (see `sha256_testvector_abc`). -/

def add32 (a b : Nat) : Nat := (a + b) % 4294967296

def rotr32 (n x : Nat) : Nat := ((x >>> n) ||| (x <<< (32 - n))) % 4294967296

def smallSigma0 (x : Nat) : Nat := rotr32 7 x ^^^ rotr32 18 x ^^^ (x >>> 3)

def smallSigma1 (x : Nat) : Nat := rotr32 17 x ^^^ rotr32 19 x ^^^ (x >>> 10)

def bigSigma0 (x : Nat) : Nat := rotr32 2 x ^^^ rotr32 13 x ^^^ rotr32 22 x

def bigSigma1 (x : Nat) : Nat := rotr32 6 x ^^^ rotr32 11 x ^^^ rotr32 25 x

def chNat (e f g : Nat) : Nat := (e &&& f) ^^^ ((e ^^^ 4294967295) &&& g)

def majNat (a b c : Nat) : Nat := (a &&& b) ^^^ (a &&& c) ^^^ (b &&& c)

def K256 : List Nat :=
  [1116352408, 1899447441, 3049323471, 3921009573, 961987163,
   1508970993, 2453635748, 2870763221, 3624381080, 310598401,
   607225278, 1426881987, 1925078388, 2162078206, 2614888103,
   3248222580, 3835390401, 4022224774, 264347078, 604807628,
   770255983, 1249150122, 1555081692, 1996064986, 2554220882,
   2821834349, 2952996808, 3210313671, 3336571891, 3584528711,
   113926993, 338241895, 666307205, 773529912, 1294757372,
   1396182291, 1695183700, 1986661051, 2177026350, 2456956037,
   2730485921, 2820302411, 3259730800, 3345764771, 3516065817,
   3600352804, 4094571909, 275423344, 430227734, 506948616,
   659060556, 883997877, 958139571, 1322822218, 1537002063,
   1747873779, 1955562222, 2024104815, 2227730452, 2361852424,
   2428436474, 2756734187, 3204031479, 3329325298]

def H256 : List Nat :=
  [1779033703, 3144134277, 1013904242, 2773480762,
   1359893119, 2600822924, 528734635, 1541459225]

/-- 64-bit big-endian byte encoding (for the SHA-256 length field). -/
def be64 (n : Nat) : List Nat :=
  [(n >>> 56) % 256, (n >>> 48) % 256, (n >>> 40) % 256, (n >>> 32) % 256,
   (n >>> 24) % 256, (n >>> 16) % 256, (n >>> 8) % 256, n % 256]

def sha256pad (msg : List Nat) : List Nat :=
  let padZeros := (64 - ((msg.length + 9) % 64)) % 64
  msg ++ [0x80] ++ List.replicate padZeros 0 ++ be64 (8 * msg.length)

/-- Split into 64-byte blocks; the fuel (initially the list length, which
each step strictly decreases by at least one) keeps the recursion
structural so that it evaluates inside the kernel. -/
def chunksAux : Nat → List Nat → List (List Nat)
  | 0, _ => []
  | _, [] => []
  | fuel + 1, x :: rest =>
      ((x :: rest).take 64) :: chunksAux fuel ((x :: rest).drop 64)

def chunks64 (l : List Nat) : List (List Nat) :=
  chunksAux l.length l

def bytesToWords : List Nat → List Nat
  | a :: b :: c :: d :: rest =>
      ((a <<< 24) ||| (b <<< 16) ||| (c <<< 8) ||| d) :: bytesToWords rest
  | _ => []

/-- Extend the 16 block words to the 64-entry message schedule. -/
def schedule (w16 : List Nat) : List Nat :=
  (List.range 48).foldl
    (fun w _ =>
      let t := add32
        (add32 (smallSigma1 (w.getD (w.length - 2) 0)) (w.getD (w.length - 7) 0))
        (add32 (smallSigma0 (w.getD (w.length - 15) 0)) (w.getD (w.length - 16) 0))
      w ++ [t])
    w16

def compressBlock (h : List Nat) (block : List Nat) : List Nat :=
  let w := schedule (bytesToWords block)
  let final := (K256.zip w).foldl
    (fun st kw =>
      match st with
      | [a, b, c, d, e, f, g, hh] =>
          let t1 := add32 hh
            (add32 (bigSigma1 e) (add32 (chNat e f g) (add32 kw.1 kw.2)))
          let t2 := add32 (bigSigma0 a) (majNat a b c)
          [add32 t1 t2, a, b, c, add32 d t1, e, f, g]
      | st => st)
    h
  match h, final with
  | [h0, h1, h2, h3, h4, h5, h6, h7], [a, b, c, d, e, f, g, hh] =>
      [add32 h0 a, add32 h1 b, add32 h2 c, add32 h3 d,
       add32 h4 e, add32 h5 f, add32 h6 g, add32 h7 hh]
  | _, _ => h

/-- Big-endian bytes of a 32-bit word. -/
def wordBytes (w : Nat) : List Nat :=
  [(w >>> 24) % 256, (w >>> 16) % 256, (w >>> 8) % 256, w % 256]

def sha256 (msg : List Nat) : List Nat :=
  ((chunks64 (sha256pad msg)).foldl compressBlock H256).flatMap wordBytes

/-- HMAC-SHA256 (RFC 2104), block size 64. -/
def hmacSha256 (key msg : List Nat) : List Nat :=
  let k0 := if 64 < key.length then sha256 key else key
  let k := k0 ++ List.replicate (64 - k0.length) 0
  sha256 ((k.map fun b => b ^^^ 0x5c) ++ sha256 ((k.map fun b => b ^^^ 0x36) ++ msg))

def hexDigitChar (n : Nat) : Char :=
  if n < 10 then Char.ofNat (48 + n) else Char.ofNat (87 + n)

/-- `hex::encode` (lowercase). -/
def hexEncode (bytes : List Nat) : List Char :=
  bytes.flatMap fun b => [hexDigitChar (b / 16), hexDigitChar (b % 16)]

def hexVal (c : Char) : Option Nat :=
  if '0' ≤ c ∧ c ≤ '9' then some (c.toNat - 48)
  else if 'a' ≤ c ∧ c ≤ 'f' then some (c.toNat - 87)
  else if 'A' ≤ c ∧ c ≤ 'F' then some (c.toNat - 55)
  else none

/-- `hex::decode`: pairs of hex digits, failing on odd length or
non-hex characters. -/
def hexDecode : List Char → Option (List Nat)
  | [] => some []
  | [_] => none
  | c1 :: c2 :: rest =>
      match hexVal c1, hexVal c2, hexDecode rest with
      | some v1, some v2, some bs => some ((16 * v1 + v2) :: bs)
      | _, _, _ => none

/-- base64url (no padding) alphabet. -/
def b64Char (n : Nat) : Char :=
  if n < 26 then Char.ofNat (65 + n)
  else if n < 52 then Char.ofNat (97 + (n - 26))
  else if n < 62 then Char.ofNat (48 + (n - 52))
  else if n = 62 then '-'
  else '_'

def b64Val (c : Char) : Option Nat :=
  if 'A' ≤ c ∧ c ≤ 'Z' then some (c.toNat - 65)
  else if 'a' ≤ c ∧ c ≤ 'z' then some (c.toNat - 97 + 26)
  else if '0' ≤ c ∧ c ≤ '9' then some (c.toNat - 48 + 52)
  else if c = '-' then some 62
  else if c = '_' then some 63
  else none

/-- `base64::engine::general_purpose::URL_SAFE_NO_PAD.encode`. -/
def b64UrlEncode : List Nat → List Char
  | [] => []
  | [a] => [b64Char (a / 4), b64Char (a % 4 * 16)]
  | [a, b] =>
      [b64Char (a / 4), b64Char (a % 4 * 16 + b / 16), b64Char (b % 16 * 4)]
  | a :: b :: c :: rest =>
      b64Char (a / 4) :: b64Char (a % 4 * 16 + b / 16) ::
        b64Char (b % 16 * 4 + c / 64) :: b64Char (c % 64) :: b64UrlEncode rest

/-- `URL_SAFE_NO_PAD.decode`: strict (rejects non-canonical trailing
bits, the crate's default). -/
def b64UrlDecode : List Char → Option (List Nat)
  | [] => some []
  | [_] => none
  | [c1, c2] =>
      match b64Val c1, b64Val c2 with
      | some v1, some v2 =>
          if v2 % 16 == 0 then some [v1 * 4 + v2 / 16] else none
      | _, _ => none
  | [c1, c2, c3] =>
      match b64Val c1, b64Val c2, b64Val c3 with
      | some v1, some v2, some v3 =>
          if v3 % 4 == 0 then
            some [v1 * 4 + v2 / 16, v2 % 16 * 16 + v3 / 4]
          else none
      | _, _, _ => none
  | c1 :: c2 :: c3 :: c4 :: rest =>
      match b64Val c1, b64Val c2, b64Val c3, b64Val c4, b64UrlDecode rest with
      | some v1, some v2, some v3, some v4, some bs =>
          some ((v1 * 4 + v2 / 16) :: (v2 % 16 * 16 + v3 / 4) ::
            (v3 % 4 * 64 + v4) :: bs)
      | _, _, _, _, _ => none

/-- `link_preview::sign_image_url`: base64url-encode the URL and sign its
bytes with HMAC-SHA256 under the secret, hex-encoding the tag. -/
def sign_image_url (image_url secret : List Nat) : List Char × List Char :=
  (b64UrlEncode image_url, hexEncode (hmacSha256 secret image_url))

/-- `link_preview::verify_image_signature`: hex-decode the signature and
compare it with the recomputed tag (`Mac::verify_slice`, a constant-time
equality). -/
def verify_image_signature (image_url : List Nat) (sig : List Char)
    (secret : List Nat) : Bool :=
  match hexDecode sig with
  | none => false
  | some sigBytes => hmacSha256 secret image_url == sigBytes

/-- The embedding computes real SHA-256: FIPS 180-2 test vector. -/
theorem sha256_testvector_abc :
    hexEncode (sha256 [0x61, 0x62, 0x63]) =
      ("ba7816bf8f01cfea414140de5dae2223b00361a396177a9cb410ff61f20015ad").data := by
  decide

theorem sha256_bytes_lt (msg : List Nat) : ∀ b ∈ sha256 msg, b < 256 := by
  intro b hb
  rw [sha256] at hb
  rcases List.mem_flatMap.1 hb with ⟨w, _, hw⟩
  rw [wordBytes] at hw
  fin_cases hw <;> exact Nat.mod_lt _ (by norm_num)

theorem hexVal_hexDigitChar : ∀ n < 16, hexVal (hexDigitChar n) = some n := by
  decide

theorem hexDecode_hexEncode (bytes : List Nat) (h : ∀ b ∈ bytes, b < 256) :
    hexDecode (hexEncode bytes) = some bytes := by
  induction bytes with
  | nil => rfl
  | cons b rest ih =>
      have hb : b < 256 := h b (List.mem_cons_self b rest)
      have h1 : hexVal (hexDigitChar (b / 16)) = some (b / 16) :=
        hexVal_hexDigitChar _ (by omega)
      have h2 : hexVal (hexDigitChar (b % 16)) = some (b % 16) :=
        hexVal_hexDigitChar _ (by omega)
      have ih2 := ih fun x hx => h x (List.mem_cons_of_mem b hx)
      simp only [hexEncode, List.flatMap_cons] at ih2 ⊢
      rw [List.cons_append, List.cons_append, List.nil_append, hexDecode, h1, h2, ih2]
      have heq : 16 * (b / 16) + b % 16 = b := by omega
      show some ((16 * (b / 16) + b % 16) :: rest) = some (b :: rest)
      rw [heq]

theorem hmac_bytes_lt (key msg : List Nat) : ∀ b ∈ hmacSha256 key msg, b < 256 :=
  fun b hb => sha256_bytes_lt _ b hb

theorem verify_sign_eq_true (secret url : List Nat) :
    verify_image_signature url (sign_image_url url secret).2 secret = true := by
  rw [verify_image_signature, sign_image_url]
  simp only
  rw [hexDecode_hexEncode _ (hmac_bytes_lt _ _)]
  simp

/-- C7: verifying a signature produced by `sign_image_url` with the same
secret succeeds for every secret and URL: the hex encoding decodes back
to the tag, and the recomputed HMAC matches. -/
theorem sign_verify_roundtrip (secret url : List Nat) :
    verify_image_signature url (sign_image_url url secret).2 secret = true :=
  verify_sign_eq_true secret url

theorem b64Val_b64Char : ∀ n < 64, b64Val (b64Char n) = some n := by
  decide

theorem b64_roundtrip : ∀ (bytes : List Nat), (∀ b ∈ bytes, b < 256) →
    b64UrlDecode (b64UrlEncode bytes) = some bytes
  | [], _ => rfl
  | [a], h => by
      have ha : a < 256 := h a (by simp)
      have h1 : b64Val (b64Char (a / 4)) = some (a / 4) :=
        b64Val_b64Char _ (by omega)
      have h2 : b64Val (b64Char (a % 4 * 16)) = some (a % 4 * 16) :=
        b64Val_b64Char _ (by omega)
      have hz : a % 4 * 16 % 16 = 0 := by omega
      simp [b64UrlEncode, b64UrlDecode, h1, h2, hz]
      omega
  | [a, b], h => by
      have ha : a < 256 := h a (by simp)
      have hb : b < 256 := h b (by simp)
      have h1 : b64Val (b64Char (a / 4)) = some (a / 4) :=
        b64Val_b64Char _ (by omega)
      have h2 : b64Val (b64Char (a % 4 * 16 + b / 16)) = some (a % 4 * 16 + b / 16) :=
        b64Val_b64Char _ (by omega)
      have h3 : b64Val (b64Char (b % 16 * 4)) = some (b % 16 * 4) :=
        b64Val_b64Char _ (by omega)
      have hz : b % 16 * 4 % 4 = 0 := by omega
      simp [b64UrlEncode, b64UrlDecode, h1, h2, h3, hz]
      omega
  | a :: b :: c :: rest, h => by
      have ha : a < 256 := h a (by simp)
      have hb : b < 256 := h b (by simp)
      have hc : c < 256 := h c (by simp)
      have ih := b64_roundtrip rest fun x hx => h x (by simp [hx])
      have h1 : b64Val (b64Char (a / 4)) = some (a / 4) :=
        b64Val_b64Char _ (by omega)
      have h2 : b64Val (b64Char (a % 4 * 16 + b / 16)) = some (a % 4 * 16 + b / 16) :=
        b64Val_b64Char _ (by omega)
      have h3 : b64Val (b64Char (b % 16 * 4 + c / 64)) = some (b % 16 * 4 + c / 64) :=
        b64Val_b64Char _ (by omega)
      have h4 : b64Val (b64Char (c % 64)) = some (c % 64) :=
        b64Val_b64Char _ (by omega)
      simp [b64UrlEncode, b64UrlDecode, h1, h2, h3, h4, ih]
      omega

/-! ### C6 and C10: the SSRF guard and the image proxy
(`link_preview::is_safe_url`, `routes::proxy::proxy_image`)

URL strings are kept as their UTF-8 bytes; the external `url` crate
parser, the std `IpAddr` parser and DNS resolution
(`tokio::net::lookup_host`) are oracle parameters. -/

def isUtf8Cont (b : Nat) : Bool := 0x80 ≤ b && b ≤ 0xBF

/-- UTF-8 validity (RFC 3629), as checked by `String::from_utf8`. -/
def utf8Valid : List Nat → Bool
  | [] => true
  | b :: rest =>
      if b < 0x80 then utf8Valid rest
      else if 0xC2 ≤ b && b ≤ 0xDF then
        match rest with
        | b2 :: r => isUtf8Cont b2 && utf8Valid r
        | [] => false
      else if 0xE0 ≤ b && b ≤ 0xEF then
        match rest with
        | b2 :: b3 :: r =>
            (if b == 0xE0 then 0xA0 ≤ b2 && b2 ≤ 0xBF
             else if b == 0xED then 0x80 ≤ b2 && b2 ≤ 0x9F
             else isUtf8Cont b2) && isUtf8Cont b3 && utf8Valid r
        | _ => false
      else if 0xF0 ≤ b && b ≤ 0xF4 then
        match rest with
        | b2 :: b3 :: b4 :: r =>
            (if b == 0xF0 then 0x90 ≤ b2 && b2 ≤ 0xBF
             else if b == 0xF4 then 0x80 ≤ b2 && b2 ≤ 0x8F
             else isUtf8Cont b2) && isUtf8Cont b3 && isUtf8Cont b4 && utf8Valid r
        | _ => false
      else false

/-- `String::from_utf8`: validate; a Rust `String` is its UTF-8 bytes, so
success returns the same bytes. -/
def string_from_utf8 (bytes : List Nat) : Option (List Nat) :=
  if utf8Valid bytes then some bytes else none

/-- Model of `std::net::IpAddr`: four octets, or eight 16-bit segments. -/
inductive IpAddr where
  | v4 (a b c d : Nat)
  | v6 (segs : List Nat)
  deriving DecidableEq

/-- `Ipv4Addr::is_private`: 10/8, 172.16/12, 192.168/16. -/
def ipv4Private (a b : Nat) : Bool :=
  a == 10 || (a == 172 && (16 ≤ b && b ≤ 31)) || (a == 192 && b == 168)

/-- `Ipv6Addr::to_ipv4_mapped`: `::ffff:a.b.c.d`. -/
def toIpv4Mapped (segs : List Nat) : Option (Nat × Nat × Nat × Nat) :=
  match segs with
  | [0, 0, 0, 0, 0, s6, s7, s8] =>
      if s6 == 0xFFFF then some (s7 / 256, s7 % 256, s8 / 256, s8 % 256)
      else none
  | _ => none

/-- `link_preview::is_private_ip`. -/
def is_private_ip : IpAddr → Bool
  | .v4 a b c d =>
      (a == 127) ||
      ipv4Private a b ||
      (a == 169 && b == 254) ||
      (a == 255 && b == 255 && c == 255 && d == 255) ||
      (a == 0 && b == 0 && c == 0 && d == 0) ||
      ([a, b, c, d] == [169, 254, 169, 254]) ||
      (a == 100 && (64 ≤ b && b ≤ 127))
  | .v6 segs =>
      (segs == [0, 0, 0, 0, 0, 0, 0, 1]) ||
      (segs == [0, 0, 0, 0, 0, 0, 0, 0]) ||
      (match toIpv4Mapped segs with
       | some (a, b, c, d) =>
           (a == 127) || ipv4Private a b || (a == 169 && b == 254) ||
             ([a, b, c, d] == [169, 254, 169, 254])
       | none => false)

/-- `link_preview::is_safe_scheme`: `starts_with("http://")` or
`starts_with("https://")`. -/
def is_safe_scheme (url : List Nat) : Bool :=
  List.isPrefixOf (("http://").data.map Char.toNat) url ||
    List.isPrefixOf (("https://").data.map Char.toNat) url

/-- The pieces of `url::Url` that `is_safe_url` reads. -/
structure UrlParts where
  hostStr : Option (List Nat)
  portOrKnownDefault : Option Nat
  deriving DecidableEq

/-- `link_preview::is_safe_url`, with the `url` crate parser, the std
`IpAddr` string parser and `tokio::net::lookup_host` as oracles: scheme
check, parse, host extraction, IP-literal path, else resolve
`host:port` and require every resolved address to be non-private. -/
def is_safe_url (parseUrl : List Nat → Option UrlParts)
    (parseIp : List Nat → Option IpAddr)
    (resolve : List Nat → Nat → Except Unit (List IpAddr))
    (url : List Nat) : Bool :=
  if !is_safe_scheme url then false
  else
    match parseUrl url with
    | none => false
    | some parsed =>
      match parsed.hostStr with
      | none => false
      | some host =>
        match parseIp host with
        | some ip => !is_private_ip ip
        | none =>
          let port := parsed.portOrKnownDefault.getD 443
          match resolve host port with
          | .error _ => false
          | .ok addrs =>
              if addrs.isEmpty then false
              else addrs.all fun a => !is_private_ip a

/-- Model of `routes::proxy::ImageProxyQuery`. -/
structure ImageProxyQuery where
  url : List Char
  sig : List Char

/-- `routes::proxy::proxy_image` up to its outbound fetch: decode the
base64url URL, UTF-8-validate it, verify the HMAC signature, run the SSRF
guard; `.ok u` means the handler proceeds to fetch `u`. -/
def proxy_image (parseUrl : List Nat → Option UrlParts)
    (parseIp : List Nat → Option IpAddr)
    (resolve : List Nat → Nat → Except Unit (List IpAddr))
    (secret : List Nat) (query : ImageProxyQuery) :
    Except AppError (List Nat) :=
  match b64UrlDecode query.url with
  | none => .error (.badRequest "Invalid URL encoding")
  | some bytes =>
    match string_from_utf8 bytes with
    | none => .error (.badRequest "Invalid URL encoding")
    | some image_url =>
      if !verify_image_signature image_url query.sig secret then
        .error (.forbidden "Invalid signature")
      else if !is_safe_url parseUrl parseIp resolve image_url then
        .error (.badRequest "URL failed safety check")
      else
        .ok image_url

theorem is_safe_url_false_of_private (parseUrl : List Nat → Option UrlParts)
    (parseIp : List Nat → Option IpAddr)
    (resolve : List Nat → Nat → Except Unit (List IpAddr))
    (url : List Nat) (parts : UrlParts) (host : List Nat)
    (hparse : parseUrl url = some parts)
    (hhost : parts.hostStr = some host)
    (hpriv : (∃ ip, parseIp host = some ip ∧ is_private_ip ip = true) ∨
      (parseIp host = none ∧
        ∃ addrs, resolve host (parts.portOrKnownDefault.getD 443) = .ok addrs ∧
          addrs ≠ [] ∧ ∀ a ∈ addrs, is_private_ip a = true)) :
    is_safe_url parseUrl parseIp resolve url = false := by
  rw [is_safe_url]
  by_cases hs : is_safe_scheme url
  · simp only [hs, Bool.not_true, Bool.false_eq_true, if_false]
    simp only [hparse, hhost]
    rcases hpriv with ⟨ip, hip, hp⟩ | ⟨hnone, addrs, hres, hne, hall⟩
    · simp [hip, hp]
    · simp only [hnone, hres]
      cases addrs with
      | nil => exact absurd rfl hne
      | cons a t =>
          simp only [List.isEmpty_cons, Bool.false_eq_true, if_false]
          have : is_private_ip a = true := hall a (List.mem_cons_self a t)
          simp [List.all_cons, this]
  · simp [hs]

/-- C6: a proxy request whose base64url-decoded URL carries a correct
HMAC signature but whose host is a private IP literal, or resolves only
to private addresses, is answered with 400 "URL failed safety check"
before any outbound fetch is attempted. -/
theorem proxy_rejects_private_hosts (parseUrl : List Nat → Option UrlParts)
    (parseIp : List Nat → Option IpAddr)
    (resolve : List Nat → Nat → Except Unit (List IpAddr))
    (secret url : List Nat) (parts : UrlParts) (host : List Nat)
    (hbytes : ∀ b ∈ url, b < 256)
    (hutf8 : utf8Valid url = true)
    (hparse : parseUrl url = some parts)
    (hhost : parts.hostStr = some host)
    (hpriv : (∃ ip, parseIp host = some ip ∧ is_private_ip ip = true) ∨
      (parseIp host = none ∧
        ∃ addrs, resolve host (parts.portOrKnownDefault.getD 443) = .ok addrs ∧
          addrs ≠ [] ∧ ∀ a ∈ addrs, is_private_ip a = true)) :
    proxy_image parseUrl parseIp resolve secret
      { url := (sign_image_url url secret).1, sig := (sign_image_url url secret).2 }
      = .error (.badRequest "URL failed safety check") := by
  have hdec : b64UrlDecode (sign_image_url url secret).1 = some url := by
    rw [sign_image_url]
    exact b64_roundtrip url hbytes
  have hver := verify_sign_eq_true secret url
  have hsafe := is_safe_url_false_of_private parseUrl parseIp resolve url parts
    host hparse hhost hpriv
  rw [proxy_image]
  simp only [hdec, string_from_utf8, hutf8, if_true, hver, hsafe]
  rfl

/-- C10: `is_safe_url` is fail-closed: a bad scheme, a parse failure, a
missing host, a resolver error, or an empty resolution each yield
`false`; and a `true` answer can only arise from a non-private IP-literal
host or a non-empty resolution whose every address is non-private. -/
theorem is_safe_url_fail_closed (parseUrl : List Nat → Option UrlParts)
    (parseIp : List Nat → Option IpAddr)
    (resolve : List Nat → Nat → Except Unit (List IpAddr)) (url : List Nat) :
    (is_safe_scheme url = false → is_safe_url parseUrl parseIp resolve url = false) ∧
    (parseUrl url = none → is_safe_url parseUrl parseIp resolve url = false) ∧
    (∀ parts, parseUrl url = some parts → parts.hostStr = none →
      is_safe_url parseUrl parseIp resolve url = false) ∧
    (∀ parts host, parseUrl url = some parts → parts.hostStr = some host →
      parseIp host = none →
      resolve host (parts.portOrKnownDefault.getD 443) = .error () →
      is_safe_url parseUrl parseIp resolve url = false) ∧
    (∀ parts host, parseUrl url = some parts → parts.hostStr = some host →
      parseIp host = none →
      resolve host (parts.portOrKnownDefault.getD 443) = .ok [] →
      is_safe_url parseUrl parseIp resolve url = false) ∧
    (is_safe_url parseUrl parseIp resolve url = true →
      is_safe_scheme url = true ∧
      ∃ parts host, parseUrl url = some parts ∧ parts.hostStr = some host ∧
        ((∃ ip, parseIp host = some ip ∧ is_private_ip ip = false) ∨
          (parseIp host = none ∧
            ∃ addrs, resolve host (parts.portOrKnownDefault.getD 443) = .ok addrs ∧
              addrs ≠ [] ∧ ∀ a ∈ addrs, is_private_ip a = false))) := by
  refine ⟨fun h => ?_, fun h => ?_, fun parts hp hh => ?_,
    fun parts host hp hh hip hres => ?_, fun parts host hp hh hip hres => ?_,
    fun htrue => ?_⟩
  · simp [is_safe_url, h]
  · rw [is_safe_url]
    by_cases hs : is_safe_scheme url <;> simp [hs, h]
  · rw [is_safe_url]
    by_cases hs : is_safe_scheme url <;> simp [hs, hp, hh]
  · rw [is_safe_url]
    by_cases hs : is_safe_scheme url <;> simp [hs, hp, hh, hip, hres]
  · rw [is_safe_url]
    by_cases hs : is_safe_scheme url <;> simp [hs, hp, hh, hip, hres]
  · rw [is_safe_url] at htrue
    by_cases hs : is_safe_scheme url
    · refine ⟨hs, ?_⟩
      simp only [hs, Bool.not_true, Bool.false_eq_true, if_false] at htrue
      cases hp : parseUrl url with
      | none => simp only [hp] at htrue; cases htrue
      | some parts =>
          simp only [hp] at htrue
          cases hh : parts.hostStr with
          | none => simp only [hh] at htrue; cases htrue
          | some host =>
              simp only [hh] at htrue
              refine ⟨parts, host, rfl, hh, ?_⟩
              cases hip : parseIp host with
              | some ip =>
                  simp only [hip] at htrue
                  exact Or.inl ⟨ip, rfl, by simpa using htrue⟩
              | none =>
                  simp only [hip] at htrue
                  cases hres : resolve host (parts.portOrKnownDefault.getD 443) with
                  | error e => simp only [hres] at htrue; cases htrue
                  | ok addrs =>
                      simp only [hres] at htrue
                      cases addrs with
                      | nil => simp at htrue
                      | cons a t =>
                          simp only [List.isEmpty_cons, Bool.false_eq_true,
                            if_false] at htrue
                          refine Or.inr ⟨rfl, a :: t, rfl, by simp, ?_⟩
                          intro x hx
                          have := (List.all_eq_true.1 htrue) x hx
                          simpa using this
    · simp [hs] at htrue

def privUrl : List Nat := ("http://169.254.169.254/latest").data.map Char.toNat

def privHost : List Nat := ("169.254.169.254").data.map Char.toNat

def privSecret : List Nat := ("hmac-secret").data.map Char.toNat

def privParse (u : List Nat) : Option UrlParts :=
  if u == privUrl then
    some { hostStr := some privHost, portOrKnownDefault := some 80 }
  else none

def privParseIp (h : List Nat) : Option IpAddr :=
  if h == privHost then some (.v4 169 254 169 254) else none

theorem proxy_rejects_private_hosts_witness :
    proxy_image privParse privParseIp (fun _ _ => .error ()) privSecret
      { url := (sign_image_url privUrl privSecret).1,
        sig := (sign_image_url privUrl privSecret).2 }
      = .error (.badRequest "URL failed safety check") :=
  proxy_rejects_private_hosts privParse privParseIp (fun _ _ => .error ())
    privSecret privUrl
    { hostStr := some privHost, portOrKnownDefault := some 80 } privHost
    (by decide) (by decide) (by decide) rfl
    (Or.inl ⟨.v4 169 254 169 254, by decide, by decide⟩)

theorem is_safe_url_fail_closed_witness :
    is_safe_url (fun _ => none) (fun _ => none) (fun _ _ => .error ())
      (("ftp://example.com/x").data.map Char.toNat) = false :=
  (is_safe_url_fail_closed (fun _ => none) (fun _ => none) (fun _ _ => .error ())
    (("ftp://example.com/x").data.map Char.toNat)).1 (by decide)

end Echora
